import Mathlib

/-!
Verification of the labeler's glob-rule matching engine.

The definitions below are a shallow embedding of `src/labeler.ts`.  The
third-party minimatch library is abstracted: a compiled matcher is
represented by its pattern string, and the matching semantics is an
explicit parameter `mm : String → String → Bool` (pattern → path → Bool)
threaded through every evaluator function.  All combinator structure
(AND/OR, quantification over files, short-circuiting, empty-list
defaults) is translated directly from the source.
-/

namespace Labeler

/-- TS `type MatchRule = { and?: string[]; or?: string[] }` and the union
`string[] | MatchRule` used as the payload of `all` / `any`. -/
inductive StringsOrRule where
  | strs (globs : List String) : StringsOrRule
  | rule (andPats orPats : Option (List String)) : StringsOrRule
deriving DecidableEq

/-- TS `interface MatchConfig { all?: string[] | MatchRule; any?: string[] | MatchRule }`. -/
structure MatchConfig where
  all : Option StringsOrRule
  any : Option StringsOrRule
deriving DecidableEq

/-- TS `type StringOrMatchConfig = string | MatchConfig`. -/
inductive StringOrMatchConfig where
  | str (s : String) : StringOrMatchConfig
  | config (c : MatchConfig) : StringOrMatchConfig
deriving DecidableEq

/-- TS `toMatchConfig`: a bare string becomes `{ any: [config] }`; a
structured object passes through unchanged. -/
def toMatchConfig : StringOrMatchConfig → MatchConfig
  | StringOrMatchConfig.str s => ⟨none, some (StringsOrRule.strs [s])⟩
  | StringOrMatchConfig.config c => c

/-- TS `toMatchers`: a plain glob list compiles entirely into `matcherAll`;
a `{and, or}` rule compiles `and` into `matcherAll` and `or` into
`matcherAny`, absent fields contributing nothing.  Matchers are
represented by their pattern strings. -/
def toMatchers : StringsOrRule → List String × List String
  | StringsOrRule.strs globs => (globs, [])
  | StringsOrRule.rule andPats orPats => (andPats.getD [], orPats.getD [])

/-- TS `isMatchAll`: the file must match every matcher in the list
(early-exit loop over matchers). -/
def isMatchAll (mm : String → String → Bool) (changedFile : String)
    (matchers : List String) : Bool :=
  matchers.all (fun matcher => mm matcher changedFile)

/-- TS `isMatchAny`: an empty matcher list returns `true`; otherwise the
file must match at least one matcher. -/
def isMatchAny (mm : String → String → Bool) (changedFile : String)
    (matchers : List String) : Bool :=
  if matchers.isEmpty then true
  else matchers.any (fun matcher => mm matcher changedFile)

/-- TS `checkAny`: some changed file passes both the `all` matchers and
the `any` matchers. -/
def checkAny (mm : String → String → Bool) (changedFiles : List String)
    (matcherAll matcherAny : List String) : Bool :=
  changedFiles.any (fun changedFile =>
    isMatchAll mm changedFile matcherAll && isMatchAny mm changedFile matcherAny)

/-- TS `checkAll`: every changed file passes the `all` matchers, and every
changed file passes the `any` matchers (two loops in the source, joined
here by a short-circuit conjunction). -/
def checkAll (mm : String → String → Bool) (changedFiles : List String)
    (matcherAll matcherAny : List String) : Bool :=
  changedFiles.all (fun changedFile => isMatchAll mm changedFile matcherAll) &&
  changedFiles.all (fun changedFile => isMatchAny mm changedFile matcherAny)

/-- TS `checkMatch`: the `all` branch (when present) must pass `checkAll`,
and the `any` branch (when present) must pass `checkAny`. -/
def checkMatch (mm : String → String → Bool) (changedFiles : List String)
    (matchConfig : MatchConfig) : Bool :=
  (match matchConfig.all with
   | none => true
   | some cfg => checkAll mm changedFiles (toMatchers cfg).1 (toMatchers cfg).2) &&
  (match matchConfig.any with
   | none => true
   | some cfg => checkAny mm changedFiles (toMatchers cfg).1 (toMatchers cfg).2)

/-- TS `checkGlobs`: walk the entries in input order, normalize each with
`toMatchConfig`, and return `true` at the first entry whose `checkMatch`
succeeds; `false` if none does. -/
def checkGlobs (mm : String → String → Bool) (changedFiles : List String) :
    List StringOrMatchConfig → Bool
  | [] => false
  | glob :: rest =>
    if checkMatch mm changedFiles (toMatchConfig glob) then true
    else checkGlobs mm changedFiles rest

/-- A raw configuration value as seen by `getLabelGlobMapFromObject`: the
yaml loader yields for each label either a string, an array of entries,
or (malformed input) some other value, summarized by a tag. -/
inductive RawValue where
  | str (s : String) : RawValue
  | arr (entries : List StringOrMatchConfig) : RawValue
  | other (tag : String) : RawValue
deriving DecidableEq

/-- TS `getLabelGlobMapFromObject`: iterate the raw configuration in
order; a string value becomes a one-element list, an array value is kept
unchanged, anything else throws an error naming the label.  The thrown
JS error is modelled by `Except.error`. -/
def getLabelGlobMapFromObject :
    List (String × RawValue) → Except String (List (String × List StringOrMatchConfig))
  | [] => Except.ok []
  | (label, RawValue.str s) :: rest =>
    match getLabelGlobMapFromObject rest with
    | Except.ok m => Except.ok ((label, [StringOrMatchConfig.str s]) :: m)
    | Except.error e => Except.error e
  | (label, RawValue.arr entries) :: rest =>
    match getLabelGlobMapFromObject rest with
    | Except.ok m => Except.ok ((label, entries) :: m)
    | Except.error e => Except.error e
  | (label, RawValue.other _) :: _ =>
    Except.error ("found unexpected type for label " ++ label ++
      " (should be string or array of globs)")

/-- Whether a raw value has one of the two accepted shapes. -/
def goodRawValue : RawValue → Bool
  | RawValue.other _ => false
  | _ => true

/-- The per-label conversion performed on accepted shapes. -/
def rawToGlobs : RawValue → List StringOrMatchConfig
  | RawValue.str s => [StringOrMatchConfig.str s]
  | RawValue.arr entries => entries
  | RawValue.other _ => []

/-- The label-decision loop of TS `run` (lines 45–54): for each
`(label, globs)` entry of the configuration, in order, a matching label
is collected for addition, and a non-matching label currently carried by
the pull request is collected for removal.  Returns
`(labels, labelsToRemove)`. -/
def runLabelDecisions (mm : String → String → Bool) (changedFiles : List String)
    (prLabels : List String) :
    List (String × List StringOrMatchConfig) → List String × List String
  | [] => ([], [])
  | (label, globs) :: rest =>
    let acc := runLabelDecisions mm changedFiles prLabels rest
    if checkGlobs mm changedFiles globs then (label :: acc.1, acc.2)
    else if prLabels.contains label then (acc.1, label :: acc.2)
    else acc

/-- The removal call of TS `run` (lines 60–62): `removeLabels` is invoked
with `labelsToRemove` only when `syncLabels` is set and the list is
non-empty; otherwise no label is removed. -/
def invokedRemovals (mm : String → String → Bool) (changedFiles : List String)
    (prLabels : List String) (labelGlobs : List (String × List StringOrMatchConfig))
    (syncLabels : Bool) : List String :=
  let labelsToRemove := (runLabelDecisions mm changedFiles prLabels labelGlobs).2
  if syncLabels && !labelsToRemove.isEmpty then labelsToRemove else []

/-- Modelled from the spec: the pattern compiler is the third-party
minimatch library, absent from the repository sources.  Per §4.2, a
pattern beginning with `!` is compiled from the remainder of the string
as a negated matcher, and a malformed pattern (modelled as an unclosed
character class) surfaces an explicit error naming the offending pattern
text. -/
def classClosed : List Char → Bool → Bool
  | [], inClass => !inClass
  | c :: rest, inClass =>
    if c == '[' then classClosed rest true
    else if c == ']' then classClosed rest false
    else classClosed rest inClass

/-- Modelled from the spec: well-formedness of a glob pattern body (every
character class opened by `[` is closed by `]`). -/
def patternWellFormed (p : String) : Bool :=
  classClosed p.toList false

/-- Modelled from the spec: the body of a pattern — the characters after
a leading `!` (which marks negation), or all of them otherwise. -/
def patternBody : List Char → List Char
  | [] => []
  | c :: rest => if c == '!' then rest else c :: rest

/-- Modelled from the spec: whether a pattern requests a negated matcher
by beginning with `!`. -/
def negated : List Char → Bool
  | [] => false
  | c :: _ => c == '!'

/-- Modelled from the spec: whether compiling `p` fails — the body of the
pattern (after stripping a leading `!`) is malformed. -/
def patternMalformed (p : String) : Bool :=
  !classClosed (patternBody p.toList) false

/-- Modelled from the spec: a compiled matcher records its pattern body
and whether it is negated. -/
structure CompiledMatcher where
  pattern : String
  negate : Bool
deriving DecidableEq

/-- Modelled from the spec: `compile(pattern) -> Matcher`, raising an
explicit error identifying the offending pattern text when the pattern
is malformed, never yielding a matcher in that case. -/
def compilePattern (p : String) : Except String CompiledMatcher :=
  if classClosed (patternBody p.toList) false then
    Except.ok ⟨String.mk (patternBody p.toList), negated p.toList⟩
  else Except.error ("invalid glob pattern: " ++ p)

/-- A concrete sample matching function used to instantiate the abstract
minimatch parameter in witnesses: a pattern of the shape
`*suffix` matches any path with that suffix, and any other pattern
matches exactly itself. -/
def sampleMM (pat file : String) : Bool :=
  if pat.startsWith "*" then file.endsWith (pat.drop 1)
  else pat == file

/-! Helper characterizations of the evaluator primitives. -/

theorem isMatchAll_eq_true (mm : String → String → Bool) (f : String)
    (ms : List String) :
    isMatchAll mm f ms = true ↔ ∀ g ∈ ms, mm g f = true := by
  simp [isMatchAll]

theorem isMatchAny_eq_true (mm : String → String → Bool) (f : String)
    (ms : List String) :
    isMatchAny mm f ms = true ↔ (ms = [] ∨ ∃ g ∈ ms, mm g f = true) := by
  cases ms <;> simp [isMatchAny]

/-- Claim C1: `checkGlobs` returns true iff at least one entry matches;
entries are evaluated in input order and evaluation short-circuits on the
first matching entry (a matching head decides the result for any tail),
and the boolean result equals the disjunction over all entries. -/
theorem checkGlobs_disjunction (mm : String → String → Bool)
    (changedFiles : List String) (globs : List StringOrMatchConfig) :
    (checkGlobs mm changedFiles globs = true ↔
      ∃ g ∈ globs, checkMatch mm changedFiles (toMatchConfig g) = true) ∧
    (∀ g rest, checkMatch mm changedFiles (toMatchConfig g) = true →
      checkGlobs mm changedFiles (g :: rest) = true) := by
  constructor
  · induction globs with
    | nil => simp [checkGlobs]
    | cons g rest ih =>
      by_cases h : checkMatch mm changedFiles (toMatchConfig g) = true
      · simp [checkGlobs, h]
      · simp [checkGlobs, h, ih]
  · intro g rest h
    simp [checkGlobs, h]

/-- Claim C1 witness: a matching first entry yields `true` whatever
follows it. -/
theorem checkGlobs_disjunction_witness :
    checkGlobs sampleMM ["foo.txt"]
      [StringOrMatchConfig.config ⟨some (StringsOrRule.strs []), none⟩,
        StringOrMatchConfig.str "never"] = true :=
  (checkGlobs_disjunction sampleMM ["foo.txt"] []).2
    (StringOrMatchConfig.config ⟨some (StringsOrRule.strs []), none⟩)
    [StringOrMatchConfig.str "never"] (by decide)

/-- Claim C2: a `\x7ball: L\x7d` rule in plain-list form matches iff every
changed file matches every glob of `L`. -/
theorem checkMatch_all_list (mm : String → String → Bool)
    (changedFiles : List String) (L : List String) (hL : L ≠ []) :
    checkMatch mm changedFiles ⟨some (StringsOrRule.strs L), none⟩ = true ↔
      ∀ f ∈ changedFiles, ∀ g ∈ L, mm g f = true := by
  simp [checkMatch, toMatchers, checkAll, isMatchAll, isMatchAny]

/-- Claim C2 witness, mirroring the repository test
`all: ["*.txt"]` against `["foo.txt", "bar.txt"]`. -/
theorem checkMatch_all_list_witness :
    (["*.txt"] ≠ ([] : List String)) ∧
    (checkMatch sampleMM ["foo.txt", "bar.txt"]
        ⟨some (StringsOrRule.strs ["*.txt"]), none⟩ = true ↔
      ∀ f ∈ ["foo.txt", "bar.txt"], ∀ g ∈ ["*.txt"], sampleMM g f = true) :=
  ⟨by decide, checkMatch_all_list sampleMM ["foo.txt", "bar.txt"] ["*.txt"] (by decide)⟩

/-- Claim C3: an `\x7bany: L\x7d` rule in plain-list form matches iff some
changed file matches every glob of `L` (implicit AND over the globs,
existential over the files). -/
theorem checkMatch_any_list (mm : String → String → Bool)
    (changedFiles : List String) (L : List String) (hL : L ≠ []) :
    checkMatch mm changedFiles ⟨none, some (StringsOrRule.strs L)⟩ = true ↔
      ∃ f ∈ changedFiles, ∀ g ∈ L, mm g f = true := by
  simp [checkMatch, toMatchers, checkAny, isMatchAll, isMatchAny]

/-- Claim C3 witness, mirroring the repository test
`any: ["*.txt"]` against `["foo.txt", "bar.docx"]`. -/
theorem checkMatch_any_list_witness :
    (["*.txt"] ≠ ([] : List String)) ∧
    (checkMatch sampleMM ["foo.txt", "bar.docx"]
        ⟨none, some (StringsOrRule.strs ["*.txt"])⟩ = true ↔
      ∃ f ∈ ["foo.txt", "bar.docx"], ∀ g ∈ ["*.txt"], sampleMM g f = true) :=
  ⟨by decide, checkMatch_any_list sampleMM ["foo.txt", "bar.docx"] ["*.txt"] (by decide)⟩

/-- Claim C4: an `\x7ball: \x7band, or\x7d\x7d` rule matches iff every changed file
matches every `and` pattern (when present) and every changed file matches
at least one `or` pattern (when present); an empty or absent `or` list is
vacuously satisfied by every file. -/
theorem checkMatch_all_rule (mm : String → String → Bool)
    (changedFiles : List String) (andPats orPats : Option (List String)) :
    checkMatch mm changedFiles ⟨some (StringsOrRule.rule andPats orPats), none⟩ = true ↔
      ((∀ f ∈ changedFiles, ∀ p ∈ andPats.getD [], mm p f = true) ∧
        (∀ f ∈ changedFiles,
          orPats.getD [] = [] ∨ ∃ p ∈ orPats.getD [], mm p f = true)) := by
  simp [checkMatch, toMatchers, checkAll, isMatchAll, isMatchAny_eq_true]

/-- Claim C4 witness, instantiated at the repository test
`all: \x7bor: [...]\x7d` against `["pkg/modules/a/foo.txt", "go.mod"]`. -/
theorem checkMatch_all_rule_witness :
    checkMatch sampleMM ["pkg/modules/a/foo.txt", "go.mod"]
      ⟨some (StringsOrRule.rule none (some ["*a/foo.txt", "go.mod"])), none⟩ = true ↔
      ((∀ f ∈ ["pkg/modules/a/foo.txt", "go.mod"],
          ∀ p ∈ (none : Option (List String)).getD [], sampleMM p f = true) ∧
        (∀ f ∈ ["pkg/modules/a/foo.txt", "go.mod"],
          (some ["*a/foo.txt", "go.mod"] : Option (List String)).getD [] = [] ∨
            ∃ p ∈ (some ["*a/foo.txt", "go.mod"] : Option (List String)).getD [],
              sampleMM p f = true)) :=
  checkMatch_all_rule sampleMM ["pkg/modules/a/foo.txt", "go.mod"]
    none (some ["*a/foo.txt", "go.mod"])

/-- Claim C5: with zero changed files, a non-empty plain-list `all`
condition vacuously succeeds while a non-empty plain-list `any` condition
fails. -/
theorem checkMatch_empty_changed_files (mm : String → String → Bool)
    (L : List String) (hL : L ≠ []) :
    checkMatch mm [] ⟨some (StringsOrRule.strs L), none⟩ = true ∧
    checkMatch mm [] ⟨none, some (StringsOrRule.strs L)⟩ = false := by
  simp [checkMatch, toMatchers, checkAll, checkAny]

/-- Claim C5 witness at the non-empty glob list `["*.txt"]`. -/
theorem checkMatch_empty_changed_files_witness :
    (["*.txt"] ≠ ([] : List String)) ∧
    (checkMatch sampleMM [] ⟨some (StringsOrRule.strs ["*.txt"]), none⟩ = true ∧
      checkMatch sampleMM [] ⟨none, some (StringsOrRule.strs ["*.txt"])⟩ = false) :=
  ⟨by decide, checkMatch_empty_changed_files sampleMM ["*.txt"] (by decide)⟩

/-- Claim C6: `isMatchAny` with zero matchers returns true for every
file; hence `\x7bany: []\x7d` and `\x7bany: \x7bor: []\x7d\x7d` match exactly the
non-empty changed-file lists, while `\x7ball: []\x7d` matches every
changed-file list including the empty one. -/
theorem isMatchAny_empty_default (mm : String → String → Bool) (f : String)
    (changedFiles : List String) :
    isMatchAny mm f [] = true ∧
    (checkMatch mm changedFiles ⟨none, some (StringsOrRule.strs [])⟩ = true ↔
      changedFiles ≠ []) ∧
    (checkMatch mm changedFiles ⟨none, some (StringsOrRule.rule none (some []))⟩ = true ↔
      changedFiles ≠ []) ∧
    checkMatch mm changedFiles ⟨some (StringsOrRule.strs []), none⟩ = true := by
  refine ⟨rfl, ?_, ?_, ?_⟩ <;>
    simp [checkMatch, toMatchers, checkAny, checkAll, isMatchAll, isMatchAny] <;>
    cases changedFiles <;> simp

/-- Claim C6 witness at the one-file list `["foo.txt"]`. -/
theorem isMatchAny_empty_default_witness :
    isMatchAny sampleMM "foo.txt" [] = true ∧
    (checkMatch sampleMM ["foo.txt"] ⟨none, some (StringsOrRule.strs [])⟩ = true ↔
      ["foo.txt"] ≠ []) ∧
    (checkMatch sampleMM ["foo.txt"]
        ⟨none, some (StringsOrRule.rule none (some []))⟩ = true ↔
      ["foo.txt"] ≠ []) ∧
    checkMatch sampleMM ["foo.txt"] ⟨some (StringsOrRule.strs []), none⟩ = true :=
  isMatchAny_empty_default sampleMM "foo.txt" ["foo.txt"]

/-- Claim C7: normalization turns a bare string `s` into `\x7bany: [s]\x7d`
and passes structured configs through unchanged; consequently
`checkGlobs files [s]` equals `checkGlobs files [\x7bany: [s]\x7d]`, and
normalization is a total function with no error path. -/
theorem toMatchConfig_normalization (s : String) (c : MatchConfig)
    (mm : String → String → Bool) (changedFiles : List String) :
    toMatchConfig (StringOrMatchConfig.str s) = ⟨none, some (StringsOrRule.strs [s])⟩ ∧
    toMatchConfig (StringOrMatchConfig.config c) = c ∧
    checkGlobs mm changedFiles [StringOrMatchConfig.str s] =
      checkGlobs mm changedFiles
        [StringOrMatchConfig.config ⟨none, some (StringsOrRule.strs [s])⟩] := by
  refine ⟨rfl, rfl, ?_⟩
  simp [checkGlobs, toMatchConfig]

/-- Claim C7 witness at the bare string `"*.txt"`. -/
theorem toMatchConfig_normalization_witness :
    toMatchConfig (StringOrMatchConfig.str "*.txt") =
      ⟨none, some (StringsOrRule.strs ["*.txt"])⟩ ∧
    toMatchConfig (StringOrMatchConfig.config ⟨none, none⟩) = ⟨none, none⟩ ∧
    checkGlobs sampleMM ["foo.txt"] [StringOrMatchConfig.str "*.txt"] =
      checkGlobs sampleMM ["foo.txt"]
        [StringOrMatchConfig.config ⟨none, some (StringsOrRule.strs ["*.txt"])⟩] :=
  toMatchConfig_normalization "*.txt" ⟨none, none⟩ sampleMM ["foo.txt"]

theorem getLabelGlobMapFromObject_ok (config : List (String × RawValue))
    (h : ∀ p ∈ config, goodRawValue p.2 = true) :
    getLabelGlobMapFromObject config =
      Except.ok (config.map fun p => (p.1, rawToGlobs p.2)) := by
  induction config with
  | nil => rfl
  | cons p rest ih =>
    obtain ⟨label, v⟩ := p
    have hrest := ih fun q hq => h q (List.mem_cons_of_mem _ hq)
    cases v with
    | str s => simp [getLabelGlobMapFromObject, hrest, rawToGlobs]
    | arr entries => simp [getLabelGlobMapFromObject, hrest, rawToGlobs]
    | other tag =>
      have := h (label, RawValue.other tag) (List.mem_cons_self _ _)
      simp [goodRawValue] at this

theorem getLabelGlobMapFromObject_err (pre : List (String × RawValue))
    (label tag : String) (post : List (String × RawValue))
    (h : ∀ p ∈ pre, goodRawValue p.2 = true) :
    getLabelGlobMapFromObject (pre ++ (label, RawValue.other tag) :: post) =
      Except.error ("found unexpected type for label " ++ label ++
        " (should be string or array of globs)") := by
  induction pre with
  | nil => rfl
  | cons p rest ih =>
    obtain ⟨l, v⟩ := p
    have hrest := ih fun q hq => h q (List.mem_cons_of_mem _ hq)
    cases v with
    | str s => simp [getLabelGlobMapFromObject, hrest]
    | arr entries => simp [getLabelGlobMapFromObject, hrest]
    | other t =>
      have := h (l, RawValue.other t) (List.mem_cons_self _ _)
      simp [goodRawValue] at this

/-- Claim C8: loading a raw configuration maps a string value to a
one-element sequence and an array value to itself unchanged, and the
first value of any other shape aborts the whole load with an error naming
the offending label (the result is an error, not a map, so no matcher is
ever constructed from such a configuration). -/
theorem getLabelGlobMapFromObject_spec (config : List (String × RawValue)) :
    ((∀ p ∈ config, goodRawValue p.2 = true) →
      getLabelGlobMapFromObject config =
        Except.ok (config.map fun p => (p.1, rawToGlobs p.2))) ∧
    (∀ pre label tag post,
      config = pre ++ (label, RawValue.other tag) :: post →
      (∀ p ∈ pre, goodRawValue p.2 = true) →
      getLabelGlobMapFromObject config =
        Except.error ("found unexpected type for label " ++ label ++
          " (should be string or array of globs)")) := by
  refine ⟨getLabelGlobMapFromObject_ok config, ?_⟩
  intro pre label tag post hc hg
  subst hc
  exact getLabelGlobMapFromObject_err pre label tag post hg

/-- Claim C8 witness: a well-shaped label followed by a label mapped to a
number yields the configuration error naming the bad label. -/
theorem getLabelGlobMapFromObject_spec_witness :
    getLabelGlobMapFromObject
      [("documentation", RawValue.str "docs/**"), ("size", RawValue.other "number")] =
      Except.error ("found unexpected type for label " ++ "size" ++
        " (should be string or array of globs)") :=
  (getLabelGlobMapFromObject_spec
      [("documentation", RawValue.str "docs/**"), ("size", RawValue.other "number")]).2
    [("documentation", RawValue.str "docs/**")] "size" "number" [] rfl (by decide)

/-- Claim C9: compiling a malformed glob pattern surfaces an explicit
error whose message carries the offending pattern text, and never yields
a matcher (no silent false-match). -/
theorem compilePattern_malformed (p : String) (h : patternMalformed p = true) :
    compilePattern p = Except.error ("invalid glob pattern: " ++ p) ∧
    ∀ m, compilePattern p ≠ Except.ok m := by
  unfold patternMalformed at h
  rw [Bool.not_eq_true'] at h
  unfold compilePattern
  rw [if_neg (by simp only [String.toList] at h; simp [String.toList, h])]
  exact ⟨rfl, fun m => by simp⟩

/-- Claim C9 witness: the pattern `"[abc"` (unclosed character class) is
malformed and compiles to the error naming it. -/
theorem compilePattern_malformed_witness :
    patternMalformed "[abc" = true ∧
    (compilePattern "[abc" = Except.error ("invalid glob pattern: " ++ "[abc") ∧
      ∀ m, compilePattern "[abc" ≠ Except.ok m) :=
  ⟨by decide, compilePattern_malformed "[abc" (by decide)⟩

theorem mem_runLabelDecisions_snd (mm : String → String → Bool)
    (changedFiles prLabels : List String)
    (labelGlobs : List (String × List StringOrMatchConfig)) (label : String)
    (h : label ∈ (runLabelDecisions mm changedFiles prLabels labelGlobs).2) :
    label ∈ prLabels ∧
      ∃ globs, (label, globs) ∈ labelGlobs ∧
        checkGlobs mm changedFiles globs = false := by
  induction labelGlobs with
  | nil => simp [runLabelDecisions] at h
  | cons p rest ih =>
    obtain ⟨l, globs⟩ := p
    simp only [runLabelDecisions] at h
    by_cases hc : checkGlobs mm changedFiles globs = true
    · rw [if_pos hc] at h
      obtain ⟨hp, g, hg, hf⟩ := ih h
      exact ⟨hp, g, List.mem_cons_of_mem _ hg, hf⟩
    · rw [if_neg hc] at h
      by_cases hm : prLabels.contains l = true
      · rw [if_pos hm] at h
        rcases List.mem_cons.mp h with hl | hl
        · subst hl
          exact ⟨List.elem_iff.mp hm, globs, List.mem_cons_self _ _,
            Bool.not_eq_true _ ▸ hc⟩
        · obtain ⟨hp, g, hg, hf⟩ := ih hl
          exact ⟨hp, g, List.mem_cons_of_mem _ hg, hf⟩
      · rw [if_neg hm] at h
        obtain ⟨hp, g, hg, hf⟩ := ih h
        exact ⟨hp, g, List.mem_cons_of_mem _ hg, hf⟩

/-- Claim C10: a removal is invoked only when the sync-labels input is
enabled, and only for a label the pull request currently carries whose
rule set did not match; with sync disabled nothing at all is removed. -/
theorem removal_only_when_synced (mm : String → String → Bool)
    (changedFiles prLabels : List String)
    (labelGlobs : List (String × List StringOrMatchConfig)) (syncLabels : Bool) :
    (syncLabels = false →
      invokedRemovals mm changedFiles prLabels labelGlobs syncLabels = []) ∧
    (∀ label, label ∈ invokedRemovals mm changedFiles prLabels labelGlobs syncLabels →
      syncLabels = true ∧ label ∈ prLabels ∧
        ∃ globs, (label, globs) ∈ labelGlobs ∧
          checkGlobs mm changedFiles globs = false) := by
  constructor
  · intro hs
    simp [invokedRemovals, hs]
  · intro label hl
    simp only [invokedRemovals] at hl
    by_cases hc : (syncLabels &&
        !(runLabelDecisions mm changedFiles prLabels labelGlobs).2.isEmpty) = true
    · rw [if_pos hc] at hl
      exact ⟨(Bool.and_eq_true _ _ ▸ hc).1,
        mem_runLabelDecisions_snd mm changedFiles prLabels labelGlobs label hl⟩
    · rw [if_neg hc] at hl
      simp at hl

/-- Claim C10 witness: with sync enabled, a carried label whose rules no
longer match is in the invoked removal set, is carried, and has a
non-matching rule entry. -/
theorem removal_only_when_synced_witness :
    ("docs" ∈ invokedRemovals sampleMM [] ["docs"]
        [("docs", [StringOrMatchConfig.str "docs/**"])] true) ∧
    (true = true ∧ "docs" ∈ ["docs"] ∧
      ∃ globs, ("docs", globs) ∈ [("docs", [StringOrMatchConfig.str "docs/**"])] ∧
        checkGlobs sampleMM [] globs = false) :=
  ⟨by decide,
    (removal_only_when_synced sampleMM [] ["docs"]
        [("docs", [StringOrMatchConfig.str "docs/**"])] true).2 "docs" (by decide)⟩

end Labeler
